import Mathlib

/-!
Verification of the corpus-loading behaviour of the datalab-ml-training
workshop notebook (src/datafest/workshop.ipynb).

The notebook defines `read_files_from_folder`, which walks a directory tree
with `os.walk`, filters file names ending in ".txt", and reads each matching
file inside a `with open(...)` block, appending its full text to a list.  A
read may raise (the notebook itself demonstrates a UnicodeDecodeError on a
non-UTF-8 file); such an exception propagates and aborts the loop.

The notebook then uses `TextFiles.read_folder_with_categories` from
`utils/load.py`, a file that is not part of this repository; only its caller
and a markdown description are present.  That loader is therefore modelled
from the specification (see the doc comments marked `Modelled from the
spec:`).

The directory walk is embedded as an explicit list of walk entries (the
tuples yielded by `os.walk`), and file reading as a function from paths to
an `Except` value: `Except.error` stands for a raised exception.
-/

/-- One tuple yielded by `os.walk`: the directory path, the names of its
subdirectories, and the names of the files directly inside it. -/
structure WalkEntry where
  root : String
  folders : List String
  file_names : List String
deriving DecidableEq

/-- An exception a Python file read can raise: a decode failure while reading
in text mode, or an OS-level error. -/
inductive PyError where
  | unicodeDecodeError
  | osError
deriving DecidableEq

/-- The text-file extension the notebook loader matches on. -/
def txt_ext : String := ".txt"

/-- Python's `str.endswith`: a character-level suffix test. -/
def endswith (s suffix : String) : Bool := suffix.data.isSuffixOf s.data

/-- The path separator used by `os.path.join`. -/
def pathSep : String := "/"

/-- Path concatenation, as `os.path.join(root, file_name)` produces on the
walked tree. -/
def os_path_join (root file_name : String) : String :=
  root ++ pathSep ++ file_name

/-- The inner `for file_name in file_names` loop of `read_files_from_folder`:
a name ending in ".txt" is joined to the root and read, and the text is
appended to the result; a raised read error propagates, aborting the loop. -/
def read_txt_entry (readFile : String → Except PyError String) (root : String) :
    List String → Except PyError (List String)
  | [] => Except.ok []
  | file_name :: rest =>
    if endswith file_name txt_ext then
      match readFile (os_path_join root file_name) with
      | Except.error e => Except.error e
      | Except.ok content =>
        match read_txt_entry readFile root rest with
        | Except.error e => Except.error e
        | Except.ok cs => Except.ok (content :: cs)
    else read_txt_entry readFile root rest

/-- The notebook function `read_files_from_folder`, over an explicit walk and
read function: for every walk entry, every file name ending in ".txt" is
read and its content appended; a raised error propagates to the caller. -/
def read_files_from_folder (readFile : String → Except PyError String) :
    List WalkEntry → Except PyError (List String)
  | [] => Except.ok []
  | e :: rest =>
    match read_txt_entry readFile e.root e.file_names with
    | Except.error err => Except.error err
    | Except.ok cs =>
      match read_files_from_folder readFile rest with
      | Except.error err => Except.error err
      | Except.ok cs2 => Except.ok (cs ++ cs2)

/-- The paths `read_files_from_folder` selects: for each walk entry, the file
names ending in ".txt", joined to the entry root, in walk order. -/
def matched_paths (walk : List WalkEntry) : List String :=
  walk.foldr
    (fun e acc =>
      ((e.file_names.filter (fun f => endswith f txt_ext)).map
        (os_path_join e.root)) ++ acc)
    []

/-- A file-handle event of the loader run: the `with open(...)` block opens
the file, `fp.read()` reads it, and leaving the block closes the handle. -/
inductive FileEvent where
  | opn (path : String)
  | rd (path : String)
  | cls (path : String)
deriving DecidableEq

/-- The events one `with open(file_path) as fp: fp.read()` block emits: the
handle is opened, read, and closed; the `with` statement closes the handle
also when the read raises. -/
def file_span (p : String) : List FileEvent :=
  [FileEvent.opn p, FileEvent.rd p, FileEvent.cls p]

/-- The file-handle events of the inner loop of `read_files_from_folder`:
each matching file contributes its open/read/close span; on a raised read
error the `with` block still closes the handle and the loop stops. -/
def trace_entry (readFile : String → Except PyError String) (root : String) :
    List String → List FileEvent
  | [] => []
  | file_name :: rest =>
    if endswith file_name txt_ext then
      match readFile (os_path_join root file_name) with
      | Except.error _ => file_span (os_path_join root file_name)
      | Except.ok _ =>
        file_span (os_path_join root file_name) ++ trace_entry readFile root rest
    else trace_entry readFile root rest

/-- The file-handle events of a whole `read_files_from_folder` run: entries
are processed in walk order, and a raised error inside an entry stops the
run after that entry's events. -/
def trace_run (readFile : String → Except PyError String) :
    List WalkEntry → List FileEvent
  | [] => []
  | e :: rest =>
    match read_txt_entry readFile e.root e.file_names with
    | Except.error _ => trace_entry readFile e.root e.file_names
    | Except.ok _ =>
      trace_entry readFile e.root e.file_names ++ trace_run readFile rest

/-- A trace in which files are handled strictly one after the other: each
opened handle is read and closed before any further event. -/
inductive SeqScoped : List FileEvent → Prop
  | nil : SeqScoped []
  | cons (p : String) (t : List FileEvent) : SeqScoped t →
      SeqScoped (FileEvent.opn p :: FileEvent.rd p :: FileEvent.cls p :: t)

/-- A per-file OS-level read failure (the spec's FileReadFailure). -/
inductive ReadFailure where
  | osError
deriving DecidableEq

/-- Why decoding a file's bytes failed even after the encoding-detection
fallback: detection produced no candidate, its confidence was below the
usable threshold, or the re-decode under the detected encoding failed. -/
inductive DecodeFailure where
  | detectionFailed
  | lowConfidence
  | redecodeFailed
deriving DecidableEq

/-- Modelled from the spec: the decoding environment the loader in
`utils/load.py` (not part of the repository) relies on — the default text
decoder, statistical encoding detection returning the most probable encoding
with a confidence value, decoding under a named encoding, and the usable
confidence threshold.  Byte content is a list of byte values; decoders
return `none` on failure. -/
structure DecodeEnv where
  decodeDefault : List Nat → Option String
  detect : List Nat → Option (String × Nat)
  decodeWith : String → List Nat → Option String
  threshold : Nat

/-- Modelled from the spec: decode a file's bytes — attempt the default text
encoding; on failure fall back to statistical encoding detection, and
re-decode under the most probable encoding when its confidence reaches the
usable threshold; otherwise the failure is returned to be reported. -/
def decodeFileBytes (env : DecodeEnv) (bytes : List Nat) :
    Except DecodeFailure String :=
  match env.decodeDefault bytes with
  | some s => Except.ok s
  | none =>
    match env.detect bytes with
    | none => Except.error DecodeFailure.detectionFailed
    | some (enc, conf) =>
      if conf < env.threshold then Except.error DecodeFailure.lowConfidence
      else
        match env.decodeWith enc bytes with
        | some s => Except.ok s
        | none => Except.error DecodeFailure.redecodeFailed

/-- A file as the directory walk presents it to the loader: the name of its
immediate parent directory, its file name, and the outcome of the OS-level
read of its byte content. -/
structure SrcFile where
  parent_dir : String
  file_name : String
  readResult : Except ReadFailure (List Nat)

/-- A record of the loaded corpus: the full decoded file text, the category
derived from the immediate parent directory name, and the file name. -/
structure Document where
  raw_content : String
  category : String
  file_name : String
deriving DecidableEq

/-- Why a file was skipped: an OS-level read failure or a decode failure. -/
inductive SkipReason where
  | readFailed (e : ReadFailure)
  | decodeFailed (e : DecodeFailure)
deriving DecidableEq

/-- The outcome of a corpus load: the Documents in traversal order, and the
report of skipped files (file name and reason). -/
structure LoadResult where
  docs : List Document
  skipped : List (String × SkipReason)
deriving DecidableEq

/-- Modelled from the spec: `TextFiles.read_folder_with_categories` from
`utils/load.py`, a file that is not part of the repository (only its caller
and the notebook's markdown description are).  Files are presented in
traversal order; for each file whose name matches the text-file extension
and is not in `ignored_files`, its bytes are read and decoded (default
encoding, then encoding-detection fallback); on success a Document with
`raw_content`, the parent-directory `category` and the `file_name` is
appended, and on a per-file read or decode failure the file is skipped and
reported, the load continuing with the remaining files. -/
def read_folder_with_categories (env : DecodeEnv) (ignored_files : List String) :
    List SrcFile → LoadResult
  | [] => ⟨[], []⟩
  | f :: rest =>
    let r := read_folder_with_categories env ignored_files rest
    if endswith f.file_name txt_ext then
      if f.file_name ∈ ignored_files then r
      else
        match f.readResult with
        | Except.error e =>
          ⟨r.docs, (f.file_name, SkipReason.readFailed e) :: r.skipped⟩
        | Except.ok bytes =>
          match decodeFileBytes env bytes with
          | Except.error e =>
            ⟨r.docs, (f.file_name, SkipReason.decodeFailed e) :: r.skipped⟩
          | Except.ok s =>
            ⟨⟨s, f.parent_dir, f.file_name⟩ :: r.docs, r.skipped⟩
    else r

/-- The Document a single file contributes to the load, if any: files with a
non-matching name, ignored files, and files failing read or decode
contribute none. -/
def fileDoc (env : DecodeEnv) (ignored_files : List String) (f : SrcFile) :
    Option Document :=
  if endswith f.file_name txt_ext then
    if f.file_name ∈ ignored_files then none
    else
      match f.readResult with
      | Except.error _ => none
      | Except.ok bytes =>
        match decodeFileBytes env bytes with
        | Except.error _ => none
        | Except.ok s => some ⟨s, f.parent_dir, f.file_name⟩
  else none

/-- The skip report a single file contributes to the load, if any: only a
matching, non-ignored file that fails the OS read or the decode is
reported. -/
def fileSkip (env : DecodeEnv) (ignored_files : List String) (f : SrcFile) :
    Option (String × SkipReason) :=
  if endswith f.file_name txt_ext then
    if f.file_name ∈ ignored_files then none
    else
      match f.readResult with
      | Except.error e => some (f.file_name, SkipReason.readFailed e)
      | Except.ok bytes =>
        match decodeFileBytes env bytes with
        | Except.error e => some (f.file_name, SkipReason.decodeFailed e)
        | Except.ok _ => none
  else none

/-- A file the loader cannot turn into a Document: its OS read fails, or its
bytes fail to decode under the default encoding and the detection
fallback. -/
def fileFails (env : DecodeEnv) (f : SrcFile) : Prop :=
  (∃ e, f.readResult = Except.error e) ∨
  (∃ bytes e, f.readResult = Except.ok bytes ∧
    decodeFileBytes env bytes = Except.error e)

/-- A file name matches the text-file extension. -/
def isEligible (f : SrcFile) : Bool := endswith f.file_name txt_ext

/-- A file's name is on the caller-supplied blacklist. -/
def isIgnored (ignored_files : List String) (f : SrcFile) : Bool :=
  decide (f.file_name ∈ ignored_files)

/-- A file whose OS read succeeds but whose bytes fail to decode under both
the default encoding and the encoding-detection fallback. -/
def decodeFails (env : DecodeEnv) (f : SrcFile) : Bool :=
  match f.readResult with
  | Except.error _ => false
  | Except.ok bytes =>
    match decodeFileBytes env bytes with
    | Except.error _ => true
    | Except.ok _ => false

theorem read_folder_with_categories_eq (env : DecodeEnv)
    (ignored_files : List String) (files : List SrcFile) :
    read_folder_with_categories env ignored_files files =
      ⟨files.filterMap (fileDoc env ignored_files),
       files.filterMap (fileSkip env ignored_files)⟩ := by
  induction files with
  | nil => rfl
  | cons f rest ih =>
    simp only [read_folder_with_categories, List.filterMap_cons, ih]
    by_cases h1 : endswith f.file_name txt_ext
    · by_cases h2 : f.file_name ∈ ignored_files
      · simp [fileDoc, fileSkip, h1, h2]
      · cases hr : f.readResult with
        | error e => simp [fileDoc, fileSkip, h1, h2, hr]
        | ok bytes =>
          cases hd : decodeFileBytes env bytes with
          | error e => simp [fileDoc, fileSkip, h1, h2, hr, hd]
          | ok s => simp [fileDoc, fileSkip, h1, h2, hr, hd]
    · simp [fileDoc, fileSkip, h1]

theorem read_txt_entry_ok (content : String → String) (root : String)
    (names : List String) :
    read_txt_entry (fun p => Except.ok (content p)) root names =
      Except.ok (((names.filter (fun f => endswith f txt_ext)).map
        (os_path_join root)).map content) := by
  induction names with
  | nil => rfl
  | cons f rest ih =>
    by_cases h : endswith f txt_ext
    · simp [read_txt_entry, List.filter_cons, h, ih]
    · simp [read_txt_entry, List.filter_cons, h, ih]

theorem rd_mem_trace_entry (readFile : String → Except PyError String)
    (root : String) (names : List String) (p : String)
    (h : FileEvent.rd p ∈ trace_entry readFile root names) :
    ∃ f, f ∈ names ∧ endswith f txt_ext = true ∧ p = os_path_join root f := by
  induction names with
  | nil => simp [trace_entry] at h
  | cons f rest ih =>
    by_cases hf : endswith f txt_ext
    · rw [trace_entry] at h
      simp only [hf, if_true] at h
      cases hr : readFile (os_path_join root f) with
      | error e =>
        rw [hr] at h
        simp [file_span] at h
        exact ⟨f, List.mem_cons_self f rest, hf, h⟩
      | ok s =>
        rw [hr] at h
        rcases List.mem_append.mp h with h1 | h2
        · simp [file_span] at h1
          exact ⟨f, List.mem_cons_self f rest, hf, h1⟩
        · obtain ⟨g, hg, hge, hgp⟩ := ih h2
          exact ⟨g, List.mem_cons_of_mem f hg, hge, hgp⟩
    · rw [trace_entry] at h
      simp only [hf, if_false] at h
      obtain ⟨g, hg, hge, hgp⟩ := ih (by simpa [hf] using h)
      exact ⟨g, List.mem_cons_of_mem f hg, hge, hgp⟩

theorem matched_paths_cons (e : WalkEntry) (rest : List WalkEntry) :
    matched_paths (e :: rest) =
      ((e.file_names.filter (fun f => endswith f txt_ext)).map
        (os_path_join e.root)) ++ matched_paths rest := by
  simp [matched_paths]

theorem rd_mem_trace_run (readFile : String → Except PyError String)
    (walk : List WalkEntry) (p : String)
    (h : FileEvent.rd p ∈ trace_run readFile walk) : p ∈ matched_paths walk := by
  induction walk with
  | nil => simp [trace_run, matched_paths] at h
  | cons e rest ih =>
    rw [matched_paths_cons]
    rw [trace_run] at h
    have entry_case : FileEvent.rd p ∈ trace_entry readFile e.root e.file_names →
        p ∈ (e.file_names.filter (fun f => endswith f txt_ext)).map
          (os_path_join e.root) := by
      intro hm
      obtain ⟨f, hf, hfe, hfp⟩ := rd_mem_trace_entry readFile e.root e.file_names p hm
      exact hfp ▸ List.mem_map_of_mem (os_path_join e.root)
        (List.mem_filter.mpr ⟨hf, hfe⟩)
    cases hr : read_txt_entry readFile e.root e.file_names with
    | error err =>
      rw [hr] at h
      exact List.mem_append_left _ (entry_case h)
    | ok cs =>
      rw [hr] at h
      rcases List.mem_append.mp h with h1 | h2
      · exact List.mem_append_left _ (entry_case h1)
      · exact List.mem_append_right _ (ih h2)

/-- A directory used by the concrete witnesses below. -/
def sampleRoot : String := "bbc_news/business"

/-- A file name matching the ".txt" extension, for the witnesses. -/
def sampleTxt : String := "001.txt"

/-- A file name not matching the ".txt" extension, for the witnesses. -/
def sampleMd : String := "notes.md"

/-- A one-entry walk holding one matching and one non-matching file. -/
def sampleWalk : List WalkEntry := [⟨sampleRoot, [], [sampleTxt, sampleMd]⟩]

/-- Claim C7: the loader enumerates, recursively under the root, exactly the
files whose name matches the text-file extension.  With a reader that
returns `content p` at every path `p`, the result holds exactly the contents
of the matched paths, in walk order; and for any reader, a path at which a
read event ever occurs is one of the matched paths — a file whose name does
not match ".txt" is never read and never contributes to the result. -/
theorem claim_c7_only_matching_files (content : String → String)
    (walk : List WalkEntry) :
    read_files_from_folder (fun p => Except.ok (content p)) walk =
      Except.ok ((matched_paths walk).map content) ∧
    ∀ (readFile : String → Except PyError String) (p : String),
      FileEvent.rd p ∈ trace_run readFile walk → p ∈ matched_paths walk := by
  constructor
  · induction walk with
    | nil => rfl
    | cons e rest ih =>
      rw [read_files_from_folder, read_txt_entry_ok, ih, matched_paths_cons]
      simp
  · intro readFile p h
    exact rd_mem_trace_run readFile walk p h

/-- Witness for claim C7 at a concrete walk: only the ".txt" file is loaded
and its path is among the matched paths. -/
theorem claim_c7_only_matching_files_witness :
    read_files_from_folder (fun p => Except.ok p) sampleWalk =
      Except.ok [os_path_join sampleRoot sampleTxt] ∧
    os_path_join sampleRoot sampleTxt ∈ matched_paths sampleWalk := by
  have h := claim_c7_only_matching_files (fun p => p) sampleWalk
  have h2 : (matched_paths sampleWalk).map (fun p => p) =
      [os_path_join sampleRoot sampleTxt] := by decide
  refine ⟨?_, h.2 (fun p => Except.ok p) (os_path_join sampleRoot sampleTxt)
    (by decide)⟩
  have h1 := h.1
  rw [h2] at h1
  exact h1

theorem read_txt_entry_no_match (readFile : String → Except PyError String)
    (root : String) (names : List String)
    (h : ∀ f ∈ names, endswith f txt_ext = false) :
    read_txt_entry readFile root names = Except.ok [] := by
  induction names with
  | nil => rfl
  | cons f rest ih =>
    have hf := h f (List.mem_cons_self f rest)
    have hrest : read_txt_entry readFile root rest = Except.ok [] :=
      ih (fun g hg => h g (List.mem_cons_of_mem f hg))
    simp [read_txt_entry, hf, hrest]

/-- Claim C8: loading a root directory that contains no file matching the
text-file extension returns the empty list and signals no error, for every
reader. -/
theorem claim_c8_empty_corpus (readFile : String → Except PyError String)
    (walk : List WalkEntry)
    (h : ∀ e ∈ walk, ∀ f ∈ e.file_names, endswith f txt_ext = false) :
    read_files_from_folder readFile walk = Except.ok [] := by
  induction walk with
  | nil => rfl
  | cons e rest ih =>
    have he := read_txt_entry_no_match readFile e.root e.file_names
      (h e (List.mem_cons_self e rest))
    have hr := ih (fun e2 he2 => h e2 (List.mem_cons_of_mem e he2))
    simp [read_files_from_folder, he, hr]

/-- Witness for claim C8: a root holding only a non-matching file loads to
the empty list, even under a reader that always fails. -/
theorem claim_c8_empty_corpus_witness :
    read_files_from_folder (fun _ => Except.error PyError.osError)
      [⟨sampleRoot, [], [sampleMd]⟩] = Except.ok [] :=
  claim_c8_empty_corpus (fun _ => Except.error PyError.osError)
    [⟨sampleRoot, [], [sampleMd]⟩] (by decide)

theorem seqScoped_append {s t : List FileEvent} (hs : SeqScoped s)
    (ht : SeqScoped t) : SeqScoped (s ++ t) := by
  induction hs with
  | nil => simpa using ht
  | cons p u _ ih => exact SeqScoped.cons p (u ++ t) ih

theorem seqScoped_trace_entry (readFile : String → Except PyError String)
    (root : String) (names : List String) :
    SeqScoped (trace_entry readFile root names) := by
  induction names with
  | nil => exact SeqScoped.nil
  | cons f rest ih =>
    rw [trace_entry]
    by_cases hf : endswith f txt_ext
    · rw [if_pos hf]
      cases readFile (os_path_join root f) with
      | error e => exact SeqScoped.cons _ [] SeqScoped.nil
      | ok s => exact seqScoped_append (SeqScoped.cons _ [] SeqScoped.nil) ih
    · rw [if_neg hf]
      exact ih

/-- Claim C9: files are processed strictly sequentially — in the run's
file-handle trace, each file's handle is opened, read, and closed before the
next file's handle is opened, and (the `with` block's guarantee) every
opened handle is closed, also when its read raises. -/
theorem claim_c9_sequential_scoped (readFile : String → Except PyError String)
    (walk : List WalkEntry) : SeqScoped (trace_run readFile walk) := by
  induction walk with
  | nil => exact SeqScoped.nil
  | cons e rest ih =>
    rw [trace_run]
    cases read_txt_entry readFile e.root e.file_names with
    | error err => exact seqScoped_trace_entry readFile e.root e.file_names
    | ok cs =>
      exact seqScoped_append (seqScoped_trace_entry readFile e.root e.file_names) ih

theorem read_txt_entry_congr (readFile1 readFile2 : String → Except PyError String)
    (root : String) (names : List String)
    (h : ∀ f ∈ names, endswith f txt_ext = true →
      readFile1 (os_path_join root f) = readFile2 (os_path_join root f)) :
    read_txt_entry readFile1 root names = read_txt_entry readFile2 root names := by
  induction names with
  | nil => rfl
  | cons f rest ih =>
    rw [read_txt_entry, read_txt_entry]
    by_cases hf : endswith f txt_ext
    · rw [if_pos hf, if_pos hf, h f (List.mem_cons_self f rest) hf,
        ih (fun g hg hge => h g (List.mem_cons_of_mem f hg) hge)]
    · rw [if_neg hf, if_neg hf]
      exact ih (fun g hg hge => h g (List.mem_cons_of_mem f hg) hge)

/-- Claim C10: `read_files_from_folder` is deterministic in the walk and the
file contents — two runs over the same walk whose readers agree on every
matched path return the same result, in the same order. -/
theorem claim_c10_deterministic (walk : List WalkEntry)
    (readFile1 readFile2 : String → Except PyError String)
    (h : ∀ p ∈ matched_paths walk, readFile1 p = readFile2 p) :
    read_files_from_folder readFile1 walk =
      read_files_from_folder readFile2 walk := by
  induction walk with
  | nil => rfl
  | cons e rest ih =>
    rw [read_files_from_folder, read_files_from_folder]
    have hentry : read_txt_entry readFile1 e.root e.file_names =
        read_txt_entry readFile2 e.root e.file_names := by
      apply read_txt_entry_congr
      intro f hf hfe
      apply h
      rw [matched_paths_cons]
      exact List.mem_append_left _
        (List.mem_map_of_mem _ (List.mem_filter.mpr ⟨hf, hfe⟩))
    have hrest := ih (fun p hp => h p (by
      rw [matched_paths_cons]
      exact List.mem_append_right _ hp))
    rw [hentry, hrest]

/-- Witness for claim C10: over the sample walk, a reader that fails on the
non-matching file's path gives the same run result as one that reads every
path, since they agree on all matched paths. -/
theorem claim_c10_deterministic_witness :
    read_files_from_folder (fun p => Except.ok p) sampleWalk =
      read_files_from_folder (fun p =>
        if p = os_path_join sampleRoot sampleMd then Except.error PyError.osError
        else Except.ok p) sampleWalk :=
  claim_c10_deterministic sampleWalk (fun p => Except.ok p)
    (fun p =>
      if p = os_path_join sampleRoot sampleMd then Except.error PyError.osError
      else Except.ok p)
    (by
      intro p hp
      have hm : matched_paths sampleWalk = [os_path_join sampleRoot sampleTxt] := by
        decide
      rw [hm, List.mem_singleton] at hp
      subst hp
      have hne : ¬(os_path_join sampleRoot sampleTxt =
          os_path_join sampleRoot sampleMd) := by decide
      simp [hne])

theorem fileDoc_eq_some (env : DecodeEnv) (ignored_files : List String)
    (f : SrcFile) (d : Document)
    (h : fileDoc env ignored_files f = some d) :
    endswith f.file_name txt_ext = true ∧ f.file_name ∉ ignored_files ∧
    ∃ bytes s, f.readResult = Except.ok bytes ∧
      decodeFileBytes env bytes = Except.ok s ∧
      d = ⟨s, f.parent_dir, f.file_name⟩ := by
  simp only [fileDoc] at h
  by_cases h1 : endswith f.file_name txt_ext
  · rw [if_pos h1] at h
    by_cases h2 : f.file_name ∈ ignored_files
    · rw [if_pos h2] at h
      cases h
    · rw [if_neg h2] at h
      cases hr : f.readResult with
      | error e =>
        simp only [hr] at h
        exact Option.noConfusion h
      | ok bytes =>
        simp only [hr] at h
        cases hd : decodeFileBytes env bytes with
        | error e =>
          simp only [hd] at h
          exact Option.noConfusion h
        | ok s =>
          simp only [hd, Option.some.injEq] at h
          exact ⟨h1, h2, bytes, s, rfl, hd, h.symm⟩
  · rw [if_neg h1] at h
    cases h

theorem mem_docs_exists (env : DecodeEnv) (ignored_files : List String)
    (files : List SrcFile) (d : Document)
    (h : d ∈ (read_folder_with_categories env ignored_files files).docs) :
    ∃ f, f ∈ files ∧ fileDoc env ignored_files f = some d := by
  rw [read_folder_with_categories_eq] at h
  exact List.mem_filterMap.mp h

/-- The decoded text produced by the sample default decoder. -/
def asciiText : String := "plain text"

/-- The decoded text produced by the sample fallback decoder. -/
def latinText : String := "repaired text"

/-- The encoding name the sample detector proposes. -/
def latin1Name : String := "latin-1"

/-- Default decoder of the sample environment: byte lists whose bytes are all
below 128 decode, the rest fail. -/
def sampleDecodeDefault (bytes : List Nat) : Option String :=
  if bytes.all (fun b => b < 128) then some asciiText else none

/-- Detector of the sample environment: a nonempty byte list whose first byte
is below 200 is detected as latin-1 with confidence 90; otherwise detection
fails. -/
def sampleDetect (bytes : List Nat) : Option (String × Nat) :=
  match bytes with
  | [] => none
  | b :: _ => if b < 200 then some (latin1Name, 90) else none

/-- Fallback decoder of the sample environment: decoding succeeds exactly
under the detected encoding name. -/
def sampleDecodeWith (enc : String) (_bytes : List Nat) : Option String :=
  if enc = latin1Name then some latinText else none

/-- The sample decoding environment, with usable confidence threshold 50. -/
def sampleEnv : DecodeEnv :=
  ⟨sampleDecodeDefault, sampleDetect, sampleDecodeWith, 50⟩

/-- Category names used by the sample files. -/
def sampleBusiness : String := "business"

/-- A second category name used by the sample files. -/
def sampleTech : String := "tech"

/-- A file that decodes under the default encoding. -/
def fileGood : SrcFile := ⟨sampleBusiness, sampleTxt, Except.ok [72, 73]⟩

/-- A file repaired through the encoding-detection fallback. -/
def fileRepair : SrcFile := ⟨sampleBusiness, "002.txt", Except.ok [150, 65]⟩

/-- A file that fails both the default decode and detection. -/
def fileBad : SrcFile := ⟨sampleTech, "003.txt", Except.ok [230, 1]⟩

/-- A file whose OS-level read fails. -/
def fileUnreadable : SrcFile :=
  ⟨sampleTech, "004.txt", Except.error ReadFailure.osError⟩

/-- A readable file whose name is on the sample blacklist. -/
def fileIgnored : SrcFile := ⟨sampleTech, "005.txt", Except.ok [1]⟩

/-- A readable file whose name does not match the ".txt" extension. -/
def fileOther : SrcFile := ⟨sampleTech, sampleMd, Except.ok [1]⟩

/-- The sample blacklist. -/
def sampleIgnored : List String := ["005.txt"]

/-- The sample traversal, exercising every per-file outcome. -/
def sampleFiles : List SrcFile :=
  [fileGood, fileRepair, fileBad, fileUnreadable, fileIgnored, fileOther]

/-- Claim C1: a single unreadable or undecodable file never aborts the load —
the loader is a total function, the failing file contributes no Document but
is reported on the skip list, and the Documents of all remaining files are
returned exactly as if the failing file were absent. -/
theorem claim_c1_bad_file_isolated (env : DecodeEnv)
    (ignored_files : List String) (pre post : List SrcFile) (f : SrcFile)
    (hm : endswith f.file_name txt_ext = true)
    (hi : f.file_name ∉ ignored_files)
    (hf : fileFails env f) :
    (read_folder_with_categories env ignored_files (pre ++ f :: post)).docs =
      (read_folder_with_categories env ignored_files pre).docs ++
        (read_folder_with_categories env ignored_files post).docs ∧
    ∃ r, (f.file_name, r) ∈
      (read_folder_with_categories env ignored_files
        (pre ++ f :: post)).skipped := by
  have hdoc : fileDoc env ignored_files f = none := by
    rcases hf with ⟨e, he⟩ | ⟨bytes, e, hb, hd⟩
    · simp [fileDoc, hm, hi, he]
    · simp [fileDoc, hm, hi, hb, hd]
  have hskip : ∃ r, fileSkip env ignored_files f = some (f.file_name, r) := by
    rcases hf with ⟨e, he⟩ | ⟨bytes, e, hb, hd⟩
    · exact ⟨SkipReason.readFailed e, by simp [fileSkip, hm, hi, he]⟩
    · exact ⟨SkipReason.decodeFailed e, by simp [fileSkip, hm, hi, hb, hd]⟩
  rw [read_folder_with_categories_eq, read_folder_with_categories_eq,
    read_folder_with_categories_eq]
  constructor
  · simp [List.filterMap_append, List.filterMap_cons, hdoc]
  · obtain ⟨r, hr⟩ := hskip
    refine ⟨r, ?_⟩
    simp only [List.filterMap_append, List.filterMap_cons, hr]
    exact List.mem_append_right _ (List.mem_cons_self _ _)

/-- Witness for claim C1: in a concrete run, the undecodable file `fileBad`
leaves the Documents of the surrounding files untouched and lands on the
skip report. -/
theorem claim_c1_bad_file_isolated_witness :
    (read_folder_with_categories sampleEnv sampleIgnored
        ([fileGood] ++ fileBad :: [fileRepair])).docs =
      (read_folder_with_categories sampleEnv sampleIgnored [fileGood]).docs ++
        (read_folder_with_categories sampleEnv sampleIgnored
          [fileRepair]).docs ∧
    ∃ r, (fileBad.file_name, r) ∈
      (read_folder_with_categories sampleEnv sampleIgnored
        ([fileGood] ++ fileBad :: [fileRepair])).skipped :=
  claim_c1_bad_file_isolated sampleEnv sampleIgnored [fileGood] [fileRepair]
    fileBad (by decide) (by decide)
    (Or.inr ⟨[230, 1], DecodeFailure.detectionFailed, rfl, rfl⟩)

/-- Claim C2: when a file's bytes fail to decode under the default encoding,
the loader falls back to statistical detection — if detection fails the file
is rejected with a reportable failure, if the detected confidence is below
the usable threshold it is likewise rejected, and otherwise the bytes are
re-decoded under the most probable encoding; moreover every Document the
loader returns carries a full successful decode of its file's byte content,
never a partial one. -/
theorem claim_c2_encoding_fallback (env : DecodeEnv) (bytes : List Nat)
    (h : env.decodeDefault bytes = none) :
    (env.detect bytes = none →
      decodeFileBytes env bytes = Except.error DecodeFailure.detectionFailed) ∧
    (∀ enc conf, env.detect bytes = some (enc, conf) → conf < env.threshold →
      decodeFileBytes env bytes = Except.error DecodeFailure.lowConfidence) ∧
    (∀ enc conf s, env.detect bytes = some (enc, conf) → env.threshold ≤ conf →
      env.decodeWith enc bytes = some s →
      decodeFileBytes env bytes = Except.ok s) ∧
    (∀ ignored_files files d,
      d ∈ (read_folder_with_categories env ignored_files files).docs →
      ∃ f bs, f ∈ files ∧ f.readResult = Except.ok bs ∧
        decodeFileBytes env bs = Except.ok d.raw_content) := by
  refine ⟨?_, ?_, ?_, ?_⟩
  · intro hd
    simp [decodeFileBytes, h, hd]
  · intro enc conf hd hc
    simp [decodeFileBytes, h, hd, hc]
  · intro enc conf s hd hc hw
    simp [decodeFileBytes, h, hd, Nat.not_lt.mpr hc, hw]
  · intro ignored_files files d hmem
    obtain ⟨f, hfmem, hfd⟩ := mem_docs_exists env ignored_files files d hmem
    obtain ⟨_, _, bs, s, hr, hdec, hds⟩ :=
      fileDoc_eq_some env ignored_files f d hfd
    refine ⟨f, bs, hfmem, hr, ?_⟩
    rw [hds]
    exact hdec

/-- Witness for claim C2: concrete bytes that fail the sample default decode
are repaired through detection, and the default decode indeed failed. -/
theorem claim_c2_encoding_fallback_witness :
    decodeFileBytes sampleEnv [150, 65] = Except.ok latinText ∧
    sampleEnv.decodeDefault [150, 65] = none :=
  ⟨(claim_c2_encoding_fallback sampleEnv [150, 65] rfl).2.2.1 latin1Name 90
      latinText rfl (by decide) rfl,
    rfl⟩

/-- Claim C3: every record the load returns is a Document holding exactly the
three fields raw_content — the full decoded text of its file —, category —
the immediate parent directory name —, and file_name. -/
theorem claim_c3_document_fields (env : DecodeEnv)
    (ignored_files : List String) (files : List SrcFile) (d : Document)
    (h : d ∈ (read_folder_with_categories env ignored_files files).docs) :
    ∃ f bytes s, f ∈ files ∧ f.readResult = Except.ok bytes ∧
      decodeFileBytes env bytes = Except.ok s ∧
      d = ⟨s, f.parent_dir, f.file_name⟩ := by
  obtain ⟨f, hfmem, hfd⟩ := mem_docs_exists env ignored_files files d h
  obtain ⟨_, _, bytes, s, hr, hdec, hds⟩ :=
    fileDoc_eq_some env ignored_files f d hfd
  exact ⟨f, bytes, s, hfmem, hr, hdec, hds⟩

/-- Witness for claim C3: the Document loaded from `fileGood` in the sample
run is built from its decoded text, parent directory and file name. -/
theorem claim_c3_document_fields_witness :
    ∃ f bytes s, f ∈ sampleFiles ∧ f.readResult = Except.ok bytes ∧
      decodeFileBytes sampleEnv bytes = Except.ok s ∧
      (⟨asciiText, sampleBusiness, sampleTxt⟩ : Document) =
        ⟨s, f.parent_dir, f.file_name⟩ :=
  claim_c3_document_fields sampleEnv sampleIgnored sampleFiles
    ⟨asciiText, sampleBusiness, sampleTxt⟩ (by decide)

/-- Claim C4: every returned Document's category equals the name of the
immediate parent directory of the file it was loaded from. -/
theorem claim_c4_category_parent_dir (env : DecodeEnv)
    (ignored_files : List String) (files : List SrcFile) (d : Document)
    (h : d ∈ (read_folder_with_categories env ignored_files files).docs) :
    ∃ f, f ∈ files ∧ d.file_name = f.file_name ∧
      d.category = f.parent_dir := by
  obtain ⟨f, hfmem, hfd⟩ := mem_docs_exists env ignored_files files d h
  obtain ⟨_, _, bytes, s, hr, hdec, hds⟩ :=
    fileDoc_eq_some env ignored_files f d hfd
  exact ⟨f, hfmem, by rw [hds], by rw [hds]⟩

/-- Witness for claim C4: the Document loaded from `fileRepair` carries its
parent directory name as category. -/
theorem claim_c4_category_parent_dir_witness :
    ∃ f, f ∈ sampleFiles ∧
      (⟨latinText, sampleBusiness, "002.txt"⟩ : Document).file_name =
        f.file_name ∧
      (⟨latinText, sampleBusiness, "002.txt"⟩ : Document).category =
        f.parent_dir :=
  claim_c4_category_parent_dir sampleEnv sampleIgnored sampleFiles
    ⟨latinText, sampleBusiness, "002.txt"⟩ (by decide)

/-- Claim C5: no Document whose file_name is a member of ignored_files is
ever present in the returned corpus. -/
theorem claim_c5_ignored_excluded (env : DecodeEnv)
    (ignored_files : List String) (files : List SrcFile) (d : Document)
    (h : d ∈ (read_folder_with_categories env ignored_files files).docs) :
    d.file_name ∉ ignored_files := by
  obtain ⟨f, hfmem, hfd⟩ := mem_docs_exists env ignored_files files d h
  obtain ⟨_, h2, bytes, s, hr, hdec, hds⟩ :=
    fileDoc_eq_some env ignored_files f d hfd
  rw [hds]
  exact h2

/-- Witness for claim C5: the Document loaded from `fileGood` in the sample
run has a file name outside the sample blacklist. -/
theorem claim_c5_ignored_excluded_witness :
    (⟨asciiText, sampleBusiness, sampleTxt⟩ : Document).file_name ∉
      sampleIgnored :=
  claim_c5_ignored_excluded sampleEnv sampleIgnored sampleFiles
    ⟨asciiText, sampleBusiness, sampleTxt⟩ (by decide)

theorem length_filterMap_countP (g : SrcFile → Option Document)
    (l : List SrcFile) :
    (l.filterMap g).length = l.countP (fun a => (g a).isSome) := by
  induction l with
  | nil => rfl
  | cons a l ih =>
    rw [List.filterMap_cons, List.countP_cons]
    cases hg : g a with
    | none => simp [hg, ih]
    | some b => simp [hg, ih]

theorem c6_count_aux (env : DecodeEnv) (ignored_files : List String)
    (files : List SrcFile)
    (h : ∀ f ∈ files, ∃ bs, f.readResult = Except.ok bs) :
    files.countP (fun f => (fileDoc env ignored_files f).isSome) +
      files.countP (fun f => isEligible f && isIgnored ignored_files f) +
      files.countP (fun f =>
        isEligible f && !isIgnored ignored_files f && decodeFails env f) =
      files.countP isEligible := by
  induction files with
  | nil => rfl
  | cons f rest ih =>
    have hrest := ih (fun g hg => h g (List.mem_cons_of_mem f hg))
    obtain ⟨bs, hbs⟩ := h f (List.mem_cons_self f rest)
    have hpt : (if (fileDoc env ignored_files f).isSome = true then 1 else 0) +
        (if (isEligible f && isIgnored ignored_files f) = true then 1 else 0) +
        (if (isEligible f && !isIgnored ignored_files f &&
            decodeFails env f) = true then 1 else 0) =
        (if isEligible f = true then 1 else 0) := by
      by_cases h1 : endswith f.file_name txt_ext
      · by_cases h2 : f.file_name ∈ ignored_files
        · simp [fileDoc, isEligible, isIgnored, decodeFails, h1, h2, hbs]
        · cases hd : decodeFileBytes env bs with
          | error e =>
            simp [fileDoc, isEligible, isIgnored, decodeFails, h1, h2, hbs, hd]
          | ok s =>
            simp [fileDoc, isEligible, isIgnored, decodeFails, h1, h2, hbs, hd]
      · simp [fileDoc, isEligible, isIgnored, decodeFails, h1]
    simp only [List.countP_cons]
    omega

/-- Claim C6: when every file of the traversal is readable, the number of
Documents returned equals the number of files matching the text-file
extension, minus those whose names are in ignored_files, minus those whose
bytes fail to decode under both the default encoding and detection. -/
theorem claim_c6_document_count (env : DecodeEnv)
    (ignored_files : List String) (files : List SrcFile)
    (h : ∀ f ∈ files, ∃ bs, f.readResult = Except.ok bs) :
    (read_folder_with_categories env ignored_files files).docs.length =
      files.countP isEligible
        - files.countP (fun f => isEligible f && isIgnored ignored_files f)
        - files.countP (fun f =>
            isEligible f && !isIgnored ignored_files f &&
              decodeFails env f) := by
  have key := c6_count_aux env ignored_files files h
  have hlen : (read_folder_with_categories env ignored_files files).docs.length =
      files.countP (fun f => (fileDoc env ignored_files f).isSome) := by
    rw [read_folder_with_categories_eq]
    exact length_filterMap_countP (fileDoc env ignored_files) files
  omega

/-- Witness for claim C6: on a concrete all-readable traversal — one default
decode, one repair, one decode failure, one blacklisted file, one
non-matching file — the count equation holds. -/
theorem claim_c6_document_count_witness :
    (read_folder_with_categories sampleEnv sampleIgnored
        [fileGood, fileRepair, fileBad, fileIgnored, fileOther]).docs.length =
      ([fileGood, fileRepair, fileBad, fileIgnored,
          fileOther] : List SrcFile).countP isEligible
        - ([fileGood, fileRepair, fileBad, fileIgnored,
            fileOther] : List SrcFile).countP
            (fun f => isEligible f && isIgnored sampleIgnored f)
        - ([fileGood, fileRepair, fileBad, fileIgnored,
            fileOther] : List SrcFile).countP
            (fun f => isEligible f && !isIgnored sampleIgnored f &&
              decodeFails sampleEnv f) :=
  claim_c6_document_count sampleEnv sampleIgnored
    [fileGood, fileRepair, fileBad, fileIgnored, fileOther] (by
      intro f hf
      fin_cases hf
      · exact ⟨[72, 73], rfl⟩
      · exact ⟨[150, 65], rfl⟩
      · exact ⟨[230, 1], rfl⟩
      · exact ⟨[1], rfl⟩
      · exact ⟨[1], rfl⟩)
